import Mathlib

/-!
Shallow embedding of the dialect-abstraction layer of the sequelize
repository: the abstract dialect (data-type override registry, string and
buffer escaping) and the MySQL dialect's data types (BOOLEAN, DATE, GEOMETRY,
ENUM).  Definitions are translated from the TypeScript source; external
libraries (wkx, dayjs, node:util) are represented symbolically or modelled
from their documented behaviour where noted.
-/

namespace Sequelize

/-- The single-quote character `'` (code point 39). -/
def quoteChar : Char := Char.ofNat 39

/-- The one-character string holding a single quote. -/
def sq : String := String.singleton quoteChar

/-! ## Data-type override registry (`AbstractDialect.dataTypeOverrides`)

A dialect declares a record of data-type classes (`this.DataTypes`).  Each
class may carry the `kIsDataTypeOverrideOf` marker naming the base data type
it replaces.  We model a declared class by its name together with that
optional marker (identifying the base class by its name). -/

structure DataTypeClass where
  name : String
  /-- the `kIsDataTypeOverrideOf` static marker: the base data type this class
  replaces, or `none` when the marker is absent. -/
  replaces : Option String
deriving DecidableEq, Repr

/-- Error message thrown when a declared data type has no
`kIsDataTypeOverrideOf` marker (source: abstract-dialect, line 217). -/
def unmarkedMsg (dialect typeName : String) : String :=
  s!"Dialect {dialect} declares a DataType {typeName}, but does not specify which base DataType it is the dialect-specific implementation of."

/-- Error message thrown when two declared data types replace the same base
type (source: abstract-dialect, line 221). -/
def conflictMsg (dialect baseName : String) : String :=
  s!"Dialect {dialect} declares more than one implementation for DataType {baseName}."

/-- The loop of the `dataTypeOverrides` getter: iterate over the declared
data-type classes in order, accumulating the overrides `Map` (modelled as an
insertion-ordered association list from base-type name to declaring class). -/
def resolveOverridesAux (dialect : String)
    (acc : List (String × DataTypeClass)) :
    List DataTypeClass → Except String (List (String × DataTypeClass))
  | [] => .ok acc
  | dt :: rest =>
    match dt.replaces with
    | none => .error (unmarkedMsg dialect dt.name)
    | some base =>
      if acc.any (fun p => p.1 = base) then .error (conflictMsg dialect base)
      else resolveOverridesAux dialect (acc ++ [(base, dt)]) rest

/-- The uncached computation performed by the `dataTypeOverrides` getter. -/
def resolveOverrides (dialect : String) (dataTypes : List DataTypeClass) :
    Except String (List (String × DataTypeClass)) :=
  resolveOverridesAux dialect [] dataTypes

/-- The markers of all marked declared classes, in declaration order. -/
def markedBases (dataTypes : List DataTypeClass) : List String :=
  dataTypes.filterMap (·.replaces)

/-- The intended override mapping: each marked declared class, keyed by the
base type its marker names, in declaration order. -/
def overridePairs (dataTypes : List DataTypeClass) : List (String × DataTypeClass) :=
  dataTypes.filterMap (fun dt => dt.replaces.map (fun b => (b, dt)))

/-- State of an `AbstractDialect` instance, as far as the override registry is
concerned: its name, its declared `DataTypes`, and the private
`#dataTypeOverridesCache` field. -/
structure DialectState where
  name : String
  DataTypes : List DataTypeClass
  dataTypeOverridesCache : Option (List (String × DataTypeClass))
deriving DecidableEq, Repr

/-- The `dataTypeOverrides` getter: returns the cached map when the cache
field is set, otherwise computes the override map, stores it in the cache on
success, and returns it.  A thrown error leaves the cache untouched. -/
def dataTypeOverrides (d : DialectState) :
    Except String (List (String × DataTypeClass)) × DialectState :=
  match d.dataTypeOverridesCache with
  | some cached => (.ok cached, d)
  | none =>
    match resolveOverrides d.name d.DataTypes with
    | .error e => (.error e, d)
    | .ok overrides =>
      (.ok overrides, { d with dataTypeOverridesCache := some overrides })

/-! ## `AbstractDialect.escapeString` -/

/-- Embedding of the regex replacement in `escapeString` at the character
level: every single-quote character is replaced by two single-quote
characters. -/
def replaceQuotes : List Char → List Char
  | [] => []
  | c :: cs =>
    if c = quoteChar then quoteChar :: quoteChar :: replaceQuotes cs
    else c :: replaceQuotes cs

/-- Definition of `AbstractDialect.escapeString`: double every embedded single
quote, then wrap the whole value in single quotes. -/
def escapeString (value : String) : String :=
  sq ++ String.mk (replaceQuotes value.data) ++ sq

/-! ## `AbstractDialect.escapeBuffer` -/

/-- Lowercase hexadecimal digit for a value `< 16`. -/
def hexDigit (n : Nat) : Char :=
  if n < 10 then Char.ofNat (48 + n) else Char.ofNat (87 + n)

/-- Embedding of the node `Buffer` hex rendering: two lowercase hexadecimal
digits per byte, in order. -/
def bufferToHex (buffer : List Nat) : List Char :=
  buffer.flatMap (fun b => [hexDigit (b / 16), hexDigit (b % 16)])

/-- Definition of `AbstractDialect.escapeBuffer`: the hex encoding of the
buffer wrapped between `X` and single quotes. -/
def escapeBuffer (buffer : List Nat) : String :=
  "X" ++ sq ++ String.mk (bufferToHex buffer) ++ sq

/-- Numeric value of a lowercase hexadecimal digit character (decoder used to
state that the hex encoding is faithful). -/
def hexVal (c : Char) : Option Nat :=
  if 48 ≤ c.toNat ∧ c.toNat ≤ 57 then some (c.toNat - 48)
  else if 97 ≤ c.toNat ∧ c.toNat ≤ 102 then some (c.toNat - 87)
  else none

/-- Decode a lowercase-hex character sequence back into bytes, two digits per
byte. -/
def hexDecode : List Char → Option (List Nat)
  | [] => some []
  | c1 :: c2 :: rest =>
    match hexVal c1, hexVal c2, hexDecode rest with
    | some hi, some lo, some bs => some ((16 * hi + lo) :: bs)
    | _, _, _ => none
  | [_] => none

/-! ## JavaScript runtime values

A small universe of JavaScript values, sufficient for the inputs the MySQL
data types dispatch on: `null`, `undefined`, booleans, (integer) numbers,
strings, byte buffers, and other (truthy) objects. -/

inductive JSVal where
  | vNull
  | vUndefined
  | vBool (b : Bool)
  | vNum (n : Int)
  | vStr (s : String)
  | vBuf (bytes : List Nat)
  | vObj
deriving DecidableEq, Repr

/-- JavaScript truthiness on the modelled universe.  `null`, `undefined`,
`false`, `0` and the empty string are falsy; buffers and other objects are
always truthy (even an empty buffer is an object). -/
def truthy : JSVal → Bool
  | .vNull => false
  | .vUndefined => false
  | .vBool b => b
  | .vNum n => n != 0
  | .vStr s => s ≠ ""
  | .vBuf _ => true
  | .vObj => true

/-- Modelled from the documented behaviour of the `inspect` function of the
external `node:util` library: a rendered description of a value, as spliced
into error messages. -/
def inspect : JSVal → String
  | .vNull => "null"
  | .vUndefined => "undefined"
  | .vBool true => "true"
  | .vBool false => "false"
  | .vNum n => toString n
  | .vStr s => sq ++ s ++ sq
  | .vBuf bytes => "<Buffer " ++ String.mk (bufferToHex bytes) ++ ">"
  | .vObj => "[Object]"

namespace MySql

/-! ## MySQL `BOOLEAN` (`src/dialects/mysql/data-types.ts`) -/

namespace BOOLEAN

/-- Definition of `BOOLEAN.toBindableValue`: `true` maps to `"1"`, `false` to
`"0"`, and any other value throws, splicing `NodeUtil.inspect(value)` into
the message. -/
def toBindableValue : JSVal → Except String String
  | .vBool true => .ok "1"
  | .vBool false => .ok "0"
  | v => .error ("Unsupported value for BOOLEAN: " ++ inspect v)

end BOOLEAN

/-! ## MySQL `DATE`

`BaseTypes.DATE._applyTimezone` and the `dayjs` formatter live outside the
provided sources, so they are modelled from the spec. -/

/-- A wall-clock date-time, millisecond precision. -/
structure DateTime where
  year : Nat
  month : Nat
  day : Nat
  hour : Nat
  minute : Nat
  second : Nat
  ms : Nat
deriving DecidableEq, Repr

/-- The `options` record passed to `toBindableValue` (`StringifyOptions`):
only the target timezone matters here. -/
structure StringifyOptions where
  timezone : String
deriving DecidableEq, Repr

/-- Zero-pad a number to two digits (dayjs `MM`, `DD`, `HH`, `mm`, `ss`). -/
def pad2 (n : Nat) : String :=
  if n < 10 then "0" ++ toString n else toString n

/-- Zero-pad a number to three digits (dayjs `SSS`). -/
def pad3 (n : Nat) : String :=
  if n < 10 then "00" ++ toString n
  else if n < 100 then "0" ++ toString n
  else toString n

/-- Zero-pad a number to four digits (dayjs `YYYY`). -/
def pad4 (n : Nat) : String :=
  if n < 10 then "000" ++ toString n
  else if n < 100 then "00" ++ toString n
  else if n < 1000 then "0" ++ toString n
  else toString n

/-- Modelled from the spec: the `dayjs` rendering of the fixed pattern
`YYYY-MM-DD HH:mm:ss.SSS` (the external formatter is not in the provided
sources). -/
def formatTimestamp (d : DateTime) : String :=
  pad4 d.year ++ "-" ++ pad2 d.month ++ "-" ++ pad2 d.day ++ " " ++
    pad2 d.hour ++ ":" ++ pad2 d.minute ++ ":" ++ pad2 d.second ++ "." ++
    pad3 d.ms

namespace DATE

/-- Definition of `DATE.toBindableValue`, parametrised by the timezone adjustment
`_applyTimezone` of the abstract `DATE` type.  Modelled from the spec: that
method is declared outside the provided sources; the spec says the date is
first adjusted to the target timezone given in the options, so the
adjustment is taken as an argument mapping a date and a timezone to the
adjusted wall-clock date. -/
def toBindableValue (applyTimezone : DateTime → String → DateTime)
    (date : DateTime) (options : StringifyOptions) : String :=
  formatTimestamp (applyTimezone date options.timezone)

end DATE

/-! ## MySQL `GEOMETRY` -/

/-- The `SUPPORTED_GEOMETRY_TYPES` whitelist of the MySQL dialect. -/
def SUPPORTED_GEOMETRY_TYPES : List String := ["POINT", "LINESTRING", "POLYGON"]

/-- The options record populated by the abstract `GEOMETRY` constructor. -/
structure GeometryOptions where
  type : Option String
  srid : Option Nat
deriving DecidableEq, Repr

/-- Error message of the MySQL `GEOMETRY` constructor guard
(`Supported geometry types are: ${SUPPORTED_GEOMETRY_TYPES.join(', ')}`). -/
def geometryTypesMsg : String :=
  "Supported geometry types are: " ++ String.intercalate ", " SUPPORTED_GEOMETRY_TYPES

namespace GEOMETRY

/-- The MySQL `GEOMETRY` constructor: `super` stores the subtype and SRID in
`this.options`; then, when `this.options.type` is truthy and not in the
supported list, the constructor throws.  An absent subtype is `none`; a
present subtype `s` is truthy exactly when `s` is nonempty. -/
def construct (type : Option String) (srid : Option Nat) :
    Except String GeometryOptions :=
  let options : GeometryOptions := ⟨type, srid⟩
  match type with
  | some s =>
    if s ≠ "" ∧ s ∉ SUPPORTED_GEOMETRY_TYPES then .error geometryTypesMsg
    else .ok options
  | none => .ok options

/-- An input handed to the external `wkx` library: either a WKT string or a
WKB byte buffer. -/
inductive WkxInput where
  | str (s : String)
  | buf (bytes : List Nat)
deriving DecidableEq, Repr

/-- The observable outcome of `GEOMETRY.sanitize` is `null`, the input value
returned unchanged, or `wkx.Geometry.parse(w).toGeoJSON({ shortCrs: true })`
applied to the processed input `w` (the external wkx parse/convert pipeline
is kept symbolic). -/
inductive SanitizeOut where
  | null
  | raw (v : JSVal)
  | geoJSON (w : WkxInput)
deriving DecidableEq, Repr

/-- Definition of `GEOMETRY.sanitize`: falsy values map to `null`; truthy non-string
non-buffer values throw; zero-length strings/buffers are returned unchanged;
a non-empty buffer has its first 4 bytes discarded (`subarray(4)`); the
result is parsed as WKB/WKT and converted to short-CRS GeoJSON. -/
def sanitize (value : JSVal) : Except String SanitizeOut :=
  if !truthy value then .ok .null
  else
    match value with
    | .vStr s =>
      if s.length = 0 then .ok (.raw (.vStr s))
      else .ok (.geoJSON (.str s))
    | .vBuf bytes =>
      if bytes.length = 0 then .ok (.raw (.vBuf bytes))
      else .ok (.geoJSON (.buf (bytes.drop 4)))
    | _ => .error "Invalid value for GEOMETRY type. Expected string or buffer."

end GEOMETRY

/-! ## MySQL `ENUM` -/

namespace ENUM

/-- Definition of `ENUM.toSql`, parametrised by the escapeString of the dialect:
`ENUM(${this.options.values.map(value => options.dialect.escapeString(value)).join(', ')})`. -/
def toSql (dialectEscapeString : String → String) (values : List String) : String :=
  "ENUM(" ++ String.intercalate ", " (values.map dialectEscapeString) ++ ")"

end ENUM

end MySql

/-! ## Helper lemmas -/

lemma replaceQuotes_eq_flatMap (cs : List Char) :
    replaceQuotes cs =
      cs.flatMap (fun c => if c = quoteChar then [quoteChar, quoteChar] else [c]) := by
  induction cs with
  | nil => rfl
  | cons c cs ih =>
    by_cases h : c = quoteChar <;> simp [replaceQuotes, h, ih]

lemma escapeString_eq (s : String) :
    escapeString s =
      sq ++ String.mk
        (s.data.flatMap fun c => if c = quoteChar then [quoteChar, quoteChar] else [c])
        ++ sq := by
  rw [escapeString, replaceQuotes_eq_flatMap]

/-! ## Claim theorems -/

/-- C5: the default `escapeString` of the abstract dialect replaces every
occurrence of the single-quote character by two single-quote characters and
wraps the whole result in a leading and a trailing single quote; every other
character of the input is passed through unaltered (each non-quote character
maps to exactly itself in the flattened output). -/
theorem escapeString_spec (value : String) :
    (escapeString value).data =
      quoteChar ::
        (value.data.flatMap fun c =>
          if c = quoteChar then [quoteChar, quoteChar] else [c]) ++ [quoteChar] := by
  rw [escapeString_eq]
  simp [sq, String.singleton]

/-- C7: for a MySQL `ENUM` type with declared members, `toSql` renders
`ENUM(`, then the members in declared order, each passed through the
dialect default `escapeString` (so each member is wrapped in single quotes
with embedded quotes doubled), joined by a comma and a space, then `)`. -/
theorem enum_toSql_spec (values : List String) :
    MySql.ENUM.toSql escapeString values =
      "ENUM(" ++
        String.intercalate ", "
          (values.map fun v =>
            sq ++ String.mk
              (v.data.flatMap fun c =>
                if c = quoteChar then [quoteChar, quoteChar] else [c]) ++ sq)
        ++ ")" := by
  have h : escapeString = fun v =>
      sq ++ String.mk
        (v.data.flatMap fun c =>
          if c = quoteChar then [quoteChar, quoteChar] else [c]) ++ sq :=
    funext escapeString_eq
  rw [MySql.ENUM.toSql, h]

/-- C3: the MySQL `BOOLEAN` type maps `true` to the string `"1"` and `false`
to the string `"0"` in `toBindableValue`, and every other value produces an
error whose message splices in the rendered description of the offending
value. -/
theorem boolean_toBindableValue_spec :
    MySql.BOOLEAN.toBindableValue (.vBool true) = .ok "1" ∧
    MySql.BOOLEAN.toBindableValue (.vBool false) = .ok "0" ∧
    ∀ v : JSVal, v ≠ .vBool true → v ≠ .vBool false →
      MySql.BOOLEAN.toBindableValue v =
        .error ("Unsupported value for BOOLEAN: " ++ inspect v) := by
  refine ⟨rfl, rfl, fun v h1 h2 => ?_⟩
  cases v with
  | vBool b => cases b with
    | true => exact absurd rfl h1
    | false => exact absurd rfl h2
  | vNull => rfl
  | vUndefined => rfl
  | vNum n => rfl
  | vStr s => rfl
  | vBuf bytes => rfl
  | vObj => rfl

/-- Witness for C3: applies the theorem at the number `3`, whose rendered
description is `3`. -/
theorem boolean_toBindableValue_witness :
    MySql.BOOLEAN.toBindableValue (.vNum 3) =
      .error ("Unsupported value for BOOLEAN: " ++ inspect (.vNum 3)) :=
  boolean_toBindableValue_spec.2.2 (.vNum 3) (by decide) (by decide)

lemma hexVal_hexDigit : ∀ n, n < 16 → hexVal (hexDigit n) = some n := by decide

lemma hexDigit_mem_lower : ∀ n, n < 16 → hexDigit n ∈ ("0123456789abcdef").data := by
  decide

lemma bufferToHex_cons (b : Nat) (rest : List Nat) :
    bufferToHex (b :: rest) =
      hexDigit (b / 16) :: hexDigit (b % 16) :: bufferToHex rest := by
  simp [bufferToHex]

lemma bufferToHex_length (buffer : List Nat) :
    (bufferToHex buffer).length = 2 * buffer.length := by
  induction buffer with
  | nil => rfl
  | cons b rest ih =>
    rw [bufferToHex_cons]
    simp [ih]
    omega

lemma hexDecode_bufferToHex (buffer : List Nat) (h : ∀ b ∈ buffer, b < 256) :
    hexDecode (bufferToHex buffer) = some buffer := by
  induction buffer with
  | nil => rfl
  | cons b rest ih =>
    have hb : b < 256 := h b (List.mem_cons_self b rest)
    have hhi : b / 16 < 16 := by omega
    have hlo : b % 16 < 16 := by omega
    rw [bufferToHex_cons, hexDecode, hexVal_hexDigit _ hhi, hexVal_hexDigit _ hlo,
      ih (fun x hx => h x (List.mem_cons_of_mem b hx))]
    have hmod : 16 * (b / 16) + b % 16 = b := by omega
    show some ((16 * (b / 16) + b % 16) :: rest) = some (b :: rest)
    rw [hmod]

/-- C8: the default `escapeBuffer` of the abstract dialect returns the
literal `X` + quote + hex + quote, where the hex part uses two lowercase
hexadecimal digits per byte, in byte order (so the bytes are recoverable by
decoding consecutive digit pairs), and is empty for an empty buffer. -/
theorem escapeBuffer_spec (buffer : List Nat) (h : ∀ b ∈ buffer, b < 256) :
    escapeBuffer buffer = "X" ++ sq ++ String.mk (bufferToHex buffer) ++ sq ∧
    (bufferToHex buffer).length = 2 * buffer.length ∧
    hexDecode (bufferToHex buffer) = some buffer ∧
    (∀ c ∈ bufferToHex buffer, c ∈ ("0123456789abcdef").data) ∧
    bufferToHex ([] : List Nat) = [] := by
  refine ⟨rfl, bufferToHex_length buffer, hexDecode_bufferToHex buffer h, ?_, rfl⟩
  intro c hc
  simp only [bufferToHex, List.mem_flatMap, List.mem_cons,
    List.mem_singleton, List.not_mem_nil, or_false] at hc
  obtain ⟨b, hb, hcb⟩ := hc
  have h16a : b / 16 < 16 := by have := h b hb; omega
  have h16b : b % 16 < 16 := by omega
  rcases hcb with rfl | rfl
  · exact hexDigit_mem_lower _ h16a
  · exact hexDigit_mem_lower _ h16b

/-- Witness for C8: applies the theorem at the two-byte buffer `[0, 255]`,
whose escaped form is `X` + quote + `00ff` + quote. -/
theorem escapeBuffer_witness :
    escapeBuffer [0, 255] = "X" ++ sq ++ String.mk (bufferToHex [0, 255]) ++ sq ∧
    (bufferToHex [0, 255]).length = 2 * ([0, 255] : List Nat).length ∧
    hexDecode (bufferToHex [0, 255]) = some [0, 255] ∧
    (∀ c ∈ bufferToHex [0, 255], c ∈ ("0123456789abcdef").data) ∧
    bufferToHex ([] : List Nat) = [] :=
  escapeBuffer_spec [0, 255] (by decide)

/-- C9: constructing a MySQL `GEOMETRY` type with a (nonempty) geometry
subtype outside POINT, LINESTRING, POLYGON throws at construction time with
an error naming the supported subtypes; construction with one of those three
subtypes succeeds and stores the subtype and SRID in the options. -/
theorem geometry_construct_spec :
    (∀ (s : String) (srid : Option Nat), s ≠ "" →
      s ∉ MySql.SUPPORTED_GEOMETRY_TYPES →
      MySql.GEOMETRY.construct (some s) srid = .error MySql.geometryTypesMsg) ∧
    (∀ (s : String) (srid : Option Nat), s ∈ MySql.SUPPORTED_GEOMETRY_TYPES →
      MySql.GEOMETRY.construct (some s) srid = .ok ⟨some s, srid⟩) ∧
    MySql.geometryTypesMsg = "Supported geometry types are: POINT, LINESTRING, POLYGON" := by
  refine ⟨fun s srid h1 h2 => ?_, fun s srid h => ?_, by decide⟩
  · simp [MySql.GEOMETRY.construct, h1, h2]
  · have h1 : ¬(s ≠ "" ∧ s ∉ MySql.SUPPORTED_GEOMETRY_TYPES) := fun hc => hc.2 h
    simp [MySql.GEOMETRY.construct, h1]

/-- Witness for C9: the unsupported subtype MULTIPOINT fails construction
while POINT succeeds. -/
theorem geometry_construct_witness :
    MySql.GEOMETRY.construct (some "MULTIPOINT") none = .error MySql.geometryTypesMsg ∧
    MySql.GEOMETRY.construct (some "POINT") (some 4326) = .ok ⟨some "POINT", some 4326⟩ :=
  ⟨geometry_construct_spec.1 "MULTIPOINT" none (by decide) (by decide),
   geometry_construct_spec.2.1 "POINT" (some 4326) (by decide)⟩

/-- C10: the MySQL `GEOMETRY` sanitize maps every falsy input (`null`,
`undefined`, `false`, `0`, and the empty string) to `null` — in particular an
empty string yields `null` rather than passing through — and throws for every
truthy input that is neither a string nor a buffer. -/
theorem geometry_sanitize_falsy_spec :
    MySql.GEOMETRY.sanitize .vNull = .ok .null ∧
    MySql.GEOMETRY.sanitize .vUndefined = .ok .null ∧
    MySql.GEOMETRY.sanitize (.vBool false) = .ok .null ∧
    MySql.GEOMETRY.sanitize (.vNum 0) = .ok .null ∧
    MySql.GEOMETRY.sanitize (.vStr "") = .ok .null ∧
    (∀ v : JSVal, truthy v = false → MySql.GEOMETRY.sanitize v = .ok .null) ∧
    (∀ v : JSVal, truthy v = true → (∀ s, v ≠ .vStr s) → (∀ bs, v ≠ .vBuf bs) →
      MySql.GEOMETRY.sanitize v =
        .error "Invalid value for GEOMETRY type. Expected string or buffer.") := by
  refine ⟨rfl, rfl, rfl, rfl, rfl, fun v hv => ?_, fun v hv hs hb => ?_⟩
  · simp [MySql.GEOMETRY.sanitize, hv]
  · cases v with
    | vStr s => exact absurd rfl (hs s)
    | vBuf bytes => exact absurd rfl (hb bytes)
    | vBool b =>
      cases b with
      | false => simp [truthy] at hv
      | true => rfl
    | vNum n =>
      have hn : (n != 0) = true := hv
      simp [MySql.GEOMETRY.sanitize, truthy, hn]
    | vNull => simp [truthy] at hv
    | vUndefined => simp [truthy] at hv
    | vObj => rfl

/-- Witness for C10: the falsy number `0` maps to `null` and the truthy
non-string non-buffer object throws. -/
theorem geometry_sanitize_falsy_witness :
    MySql.GEOMETRY.sanitize (.vNum 0) = .ok .null ∧
    MySql.GEOMETRY.sanitize .vObj =
      .error "Invalid value for GEOMETRY type. Expected string or buffer." :=
  ⟨geometry_sanitize_falsy_spec.2.2.2.2.2.1 (.vNum 0) (by decide),
   geometry_sanitize_falsy_spec.2.2.2.2.2.2 .vObj (by decide)
     (fun s h => JSVal.noConfusion h) (fun bs h => JSVal.noConfusion h)⟩

/-- C4: the MySQL `GEOMETRY` sanitize passes an empty byte buffer through
unchanged, and for every non-empty byte buffer it discards the first 4 bytes
(the SRID prefix; truncated removal when fewer than 4 bytes are present)
before handing the remainder to the well-known-binary parse and short-CRS
GeoJSON conversion. -/
theorem geometry_sanitize_buffer_spec :
    MySql.GEOMETRY.sanitize (.vBuf []) = .ok (.raw (.vBuf [])) ∧
    (∀ bytes : List Nat, bytes ≠ [] →
      MySql.GEOMETRY.sanitize (.vBuf bytes) = .ok (.geoJSON (.buf (bytes.drop 4))) ∧
      bytes.take 4 ++ bytes.drop 4 = bytes ∧
      (bytes.drop 4).length = bytes.length - 4) := by
  refine ⟨rfl, fun bytes hb => ⟨?_, List.take_append_drop 4 bytes, List.length_drop 4 bytes⟩⟩
  have hlen : bytes.length ≠ 0 := fun hc => hb (List.length_eq_zero.mp hc)
  simp [MySql.GEOMETRY.sanitize, truthy, hlen]

/-- Witness for C4: a six-byte buffer loses its first four bytes before the
WKB parse. -/
theorem geometry_sanitize_buffer_witness :
    MySql.GEOMETRY.sanitize (.vBuf [1, 2, 3, 4, 5, 6]) =
      .ok (.geoJSON (.buf ([1, 2, 3, 4, 5, 6].drop 4))) ∧
    ([1, 2, 3, 4, 5, 6] : List Nat).take 4 ++ [1, 2, 3, 4, 5, 6].drop 4 = [1, 2, 3, 4, 5, 6] ∧
    (([1, 2, 3, 4, 5, 6] : List Nat).drop 4).length = ([1, 2, 3, 4, 5, 6] : List Nat).length - 4 :=
  geometry_sanitize_buffer_spec.2 [1, 2, 3, 4, 5, 6] (by decide)

set_option maxRecDepth 10000 in
lemma pad3_length : ∀ n, n < 1000 → (MySql.pad3 n).length = 3 := by decide

/-- C6: for every date accepted by the MySQL `DATE` type, `toBindableValue`
first adjusts the date to the target timezone of the options and then formats
the adjusted date as the fixed pattern `YYYY-MM-DD HH:mm:ss.SSS`; the
fractional-second field is the millisecond count padded to exactly three
digits. -/
theorem date_toBindableValue_spec
    (applyTimezone : MySql.DateTime → String → MySql.DateTime)
    (date : MySql.DateTime) (options : MySql.StringifyOptions) :
    MySql.DATE.toBindableValue applyTimezone date options =
      MySql.formatTimestamp (applyTimezone date options.timezone) ∧
    MySql.DATE.toBindableValue applyTimezone date options =
      MySql.pad4 (applyTimezone date options.timezone).year ++ "-" ++
      MySql.pad2 (applyTimezone date options.timezone).month ++ "-" ++
      MySql.pad2 (applyTimezone date options.timezone).day ++ " " ++
      MySql.pad2 (applyTimezone date options.timezone).hour ++ ":" ++
      MySql.pad2 (applyTimezone date options.timezone).minute ++ ":" ++
      MySql.pad2 (applyTimezone date options.timezone).second ++ "." ++
      MySql.pad3 (applyTimezone date options.timezone).ms ∧
    ((applyTimezone date options.timezone).ms < 1000 →
      (MySql.pad3 (applyTimezone date options.timezone).ms).length = 3) :=
  ⟨rfl, rfl, pad3_length _⟩

/-- Witness for C6: the identity timezone adjustment on a concrete date,
with a 7 ms fractional part rendered as three digits. -/
theorem date_toBindableValue_witness :
    MySql.DATE.toBindableValue (fun d _ => d) ⟨2022, 1, 5, 3, 4, 5, 7⟩ ⟨"+00:00"⟩ =
      MySql.formatTimestamp ((fun (d : MySql.DateTime) (_ : String) => d)
        ⟨2022, 1, 5, 3, 4, 5, 7⟩ (MySql.StringifyOptions.mk "+00:00").timezone) ∧
    MySql.DATE.toBindableValue (fun d _ => d) ⟨2022, 1, 5, 3, 4, 5, 7⟩ ⟨"+00:00"⟩ =
      MySql.pad4 2022 ++ "-" ++ MySql.pad2 1 ++ "-" ++ MySql.pad2 5 ++ " " ++
      MySql.pad2 3 ++ ":" ++ MySql.pad2 4 ++ ":" ++ MySql.pad2 5 ++ "." ++ MySql.pad3 7 ∧
    (MySql.pad3 7).length = 3 :=
  date_toBindableValue_spec (fun d _ => d) ⟨2022, 1, 5, 3, 4, 5, 7⟩ ⟨"+00:00"⟩
    |>.imp id (fun h => h.imp id (fun h3 => h3 (by decide)))

/-- C2: for a dialect instance whose declared type set resolves without
error and whose cache is still unset, the first read of `dataTypeOverrides`
returns the computed mapping and stores exactly it in the instance cache, and
every later read returns exactly that cached mapping while leaving the state
untouched (idempotent and side-effect-free). -/
theorem dataTypeOverrides_memoized (d : DialectState)
    (m : List (String × DataTypeClass))
    (hcache : d.dataTypeOverridesCache = none)
    (hok : resolveOverrides d.name d.DataTypes = .ok m) :
    (dataTypeOverrides d).1 = .ok m ∧
    (dataTypeOverrides d).2.dataTypeOverridesCache = some m ∧
    dataTypeOverrides (dataTypeOverrides d).2 = (.ok m, (dataTypeOverrides d).2) := by
  simp [dataTypeOverrides, hcache, hok]

/-- Witness for C2: a one-type MySQL-like dialect state; the first read
computes and caches the map, the second read returns the cached map and the
unchanged state. -/
theorem dataTypeOverrides_memoized_witness :
    (dataTypeOverrides ⟨"mysql", [⟨"BOOLEAN", some "BaseBOOLEAN"⟩], none⟩).1 =
      .ok [("BaseBOOLEAN", ⟨"BOOLEAN", some "BaseBOOLEAN"⟩)] ∧
    (dataTypeOverrides ⟨"mysql", [⟨"BOOLEAN", some "BaseBOOLEAN"⟩], none⟩).2.dataTypeOverridesCache =
      some [("BaseBOOLEAN", ⟨"BOOLEAN", some "BaseBOOLEAN"⟩)] ∧
    dataTypeOverrides (dataTypeOverrides ⟨"mysql", [⟨"BOOLEAN", some "BaseBOOLEAN"⟩], none⟩).2 =
      (.ok [("BaseBOOLEAN", ⟨"BOOLEAN", some "BaseBOOLEAN"⟩)],
        (dataTypeOverrides ⟨"mysql", [⟨"BOOLEAN", some "BaseBOOLEAN"⟩], none⟩).2) :=
  dataTypeOverrides_memoized ⟨"mysql", [⟨"BOOLEAN", some "BaseBOOLEAN"⟩], none⟩
    [("BaseBOOLEAN", ⟨"BOOLEAN", some "BaseBOOLEAN"⟩)] rfl rfl

lemma overridePairs_cons_some (dt : DataTypeClass) (rest : List DataTypeClass)
    (b : String) (h : dt.replaces = some b) :
    overridePairs (dt :: rest) = (b, dt) :: overridePairs rest := by
  simp [overridePairs, List.filterMap_cons, h]

lemma mem_overridePairs (dataTypes : List DataTypeClass) (b : String)
    (dt : DataTypeClass) :
    (b, dt) ∈ overridePairs dataTypes ↔ (dt ∈ dataTypes ∧ dt.replaces = some b) := by
  simp only [overridePairs, List.mem_filterMap, Option.map_eq_some', Prod.mk.injEq]
  constructor
  · rintro ⟨a, ha, x, hx, rfl, rfl⟩
    exact ⟨ha, hx⟩
  · rintro ⟨hdt, hrep⟩
    exact ⟨dt, hdt, b, hrep, rfl, rfl⟩

lemma map_fst_overridePairs (dataTypes : List DataTypeClass) :
    (overridePairs dataTypes).map Prod.fst = markedBases dataTypes := by
  induction dataTypes with
  | nil => rfl
  | cons dt rest ih =>
    cases h : dt.replaces with
    | none => simpa [overridePairs, markedBases, List.filterMap_cons, h] using ih
    | some b => simpa [overridePairs, markedBases, List.filterMap_cons, h] using ih

lemma assoc_keys_unique :
    ∀ (m : List (String × DataTypeClass)), (m.map Prod.fst).Nodup →
      ∀ (b : String) (x y : DataTypeClass), (b, x) ∈ m → (b, y) ∈ m → x = y := by
  intro m
  induction m with
  | nil => intro _ b x y hx _; cases hx
  | cons p rest ih =>
    intro hnd b x y hx hy
    rw [List.map_cons, List.nodup_cons] at hnd
    rcases List.mem_cons.mp hx with h1 | h1
    · rcases List.mem_cons.mp hy with h2 | h2
      · have : (b, x) = (b, y) := h1.trans h2.symm
        exact (Prod.mk.injEq _ _ _ _).mp this |>.2
      · exfalso
        apply hnd.1
        have : b = p.1 := by rw [← h1]
        rw [← this]
        exact List.mem_map_of_mem Prod.fst h2
    · rcases List.mem_cons.mp hy with h2 | h2
      · exfalso
        apply hnd.1
        have : b = p.1 := by rw [← h2]
        rw [← this]
        exact List.mem_map_of_mem Prod.fst h1
      · exact ih hnd.2 b x y h1 h2

lemma resolveOverridesAux_ok (dn : String) :
    ∀ (dts : List DataTypeClass) (acc : List (String × DataTypeClass)),
      (∀ dt ∈ dts, dt.replaces ≠ none) →
      (acc.map Prod.fst ++ markedBases dts).Nodup →
      resolveOverridesAux dn acc dts = .ok (acc ++ overridePairs dts) := by
  intro dts
  induction dts with
  | nil => intro acc _ _; simp [resolveOverridesAux, overridePairs]
  | cons dt rest ih =>
    intro acc hmark hnd
    obtain ⟨b, hb⟩ : ∃ b, dt.replaces = some b := by
      cases h : dt.replaces with
      | none => exact absurd h (hmark dt (List.mem_cons_self dt rest))
      | some b => exact ⟨b, rfl⟩
    have hmb : markedBases (dt :: rest) = b :: markedBases rest := by
      simp [markedBases, List.filterMap_cons, hb]
    rw [hmb] at hnd
    have hbacc : b ∉ acc.map Prod.fst := by
      intro hmem
      rcases List.nodup_append.mp hnd with ⟨_, _, hdisj⟩
      exact hdisj hmem (List.mem_cons_self b _)
    have hany : acc.any (fun p => p.1 = b) = false := by
      rw [List.any_eq_false]
      intro p hp
      simp only [decide_eq_true_eq]
      intro hc
      exact hbacc (hc ▸ List.mem_map_of_mem Prod.fst hp)
    rw [resolveOverridesAux, hb]
    simp only [hany, Bool.false_eq_true, if_false]
    rw [ih (acc ++ [(b, dt)]) (fun dt' h => hmark dt' (List.mem_cons_of_mem dt h))
      (by simpa [List.map_append, List.append_assoc] using hnd)]
    rw [overridePairs_cons_some dt rest b hb]
    simp [List.append_assoc]

lemma resolveOverridesAux_err (dn : String) :
    ∀ (dts : List DataTypeClass) (acc : List (String × DataTypeClass)),
      (acc.map Prod.fst).Nodup →
      ((∃ dt ∈ dts, dt.replaces = none) ∨
        ¬ (acc.map Prod.fst ++ markedBases dts).Nodup) →
      (∃ dt ∈ dts, dt.replaces = none ∧
         resolveOverridesAux dn acc dts = .error (unmarkedMsg dn dt.name)) ∨
      (∃ b, 2 ≤ (acc.map Prod.fst ++ markedBases dts).count b ∧
         resolveOverridesAux dn acc dts = .error (conflictMsg dn b)) := by
  intro dts
  induction dts with
  | nil =>
    intro acc hacc h
    exfalso
    rcases h with h | h
    · obtain ⟨dt, hdt, _⟩ := h
      cases hdt
    · apply h
      simpa [markedBases] using hacc
  | cons dt rest ih =>
    intro acc hacc h
    cases hrep : dt.replaces with
    | none =>
      left
      exact ⟨dt, List.mem_cons_self dt rest, hrep, by rw [resolveOverridesAux, hrep]⟩
    | some b =>
      have hmb : markedBases (dt :: rest) = b :: markedBases rest := by
        simp [markedBases, List.filterMap_cons, hrep]
      by_cases hbacc : b ∈ acc.map Prod.fst
      · right
        refine ⟨b, ?_, ?_⟩
        · rw [hmb, List.count_append, List.count_cons_self]
          have hpos : 0 < (acc.map Prod.fst).count b := List.count_pos_iff.mpr hbacc
          omega
        · have hany : acc.any (fun p => p.1 = b) = true := by
            rw [List.any_eq_true]
            obtain ⟨p, hp, hpb⟩ := List.mem_map.mp hbacc
            exact ⟨p, hp, by simpa using hpb⟩
          rw [resolveOverridesAux, hrep]
          simp only [hany, if_true]
      · have hany : acc.any (fun p => p.1 = b) = false := by
          rw [List.any_eq_false]
          intro p hp
          simp only [decide_eq_true_eq]
          intro hc
          exact hbacc (hc ▸ List.mem_map_of_mem Prod.fst hp)
        have hstep : resolveOverridesAux dn acc (dt :: rest) =
            resolveOverridesAux dn (acc ++ [(b, dt)]) rest := by
          rw [resolveOverridesAux, hrep]
          simp only [hany, Bool.false_eq_true, if_false]
        have hacc' : ((acc ++ [(b, dt)]).map Prod.fst).Nodup := by
          rw [List.map_append, List.nodup_append]
          refine ⟨hacc, List.nodup_singleton _, ?_⟩
          intro x hx hx'
          rcases List.mem_singleton.mp hx' with rfl
          exact hbacc hx
        have heq : (acc ++ [(b, dt)]).map Prod.fst ++ markedBases rest =
            acc.map Prod.fst ++ markedBases (dt :: rest) := by
          rw [List.map_append, hmb, List.append_assoc]
          rfl
        have h' : (∃ dt' ∈ rest, dt'.replaces = none) ∨
            ¬ ((acc ++ [(b, dt)]).map Prod.fst ++ markedBases rest).Nodup := by
          rcases h with h | h
          · obtain ⟨dt', hdt', hnone⟩ := h
            rcases List.mem_cons.mp hdt' with rfl | hmem
            · rw [hrep] at hnone; cases hnone
            · exact Or.inl ⟨dt', hmem, hnone⟩
          · right
            rw [heq]
            exact h
        rcases ih (acc ++ [(b, dt)]) hacc' h' with ⟨dt', hmem, hnone, herr⟩ | ⟨b', hcount, herr⟩
        · left
          exact ⟨dt', List.mem_cons_of_mem dt hmem, hnone, by rw [hstep]; exact herr⟩
        · right
          refine ⟨b', ?_, by rw [hstep]; exact herr⟩
          rw [← heq]
          exact hcount

/-- C1: for every dialect, resolving the data-type override mapping fails
with a configuration error when some declared type class carries no
base-type marker (the error names the dialect and an offending unmarked
type) or when two declared type classes carry the same base-type marker (the
error names a conflicting base type); when neither condition holds, it
returns a mapping whose entries are exactly the pairs of a marked base type
and the unique declared type that replaces it. -/
theorem dataTypeOverrides_resolution_spec (dialect : String)
    (dataTypes : List DataTypeClass) :
    ((∀ dt ∈ dataTypes, dt.replaces ≠ none) → (markedBases dataTypes).Nodup →
      ∃ m, resolveOverrides dialect dataTypes = .ok m ∧
        (∀ b dt, (b, dt) ∈ m ↔ (dt ∈ dataTypes ∧ dt.replaces = some b)) ∧
        (∀ b dt dt', (b, dt) ∈ m → (b, dt') ∈ m → dt = dt')) ∧
    (((∃ dt ∈ dataTypes, dt.replaces = none) ∨ ¬ (markedBases dataTypes).Nodup) →
      (∃ dt ∈ dataTypes, dt.replaces = none ∧
         resolveOverrides dialect dataTypes = .error (unmarkedMsg dialect dt.name)) ∨
      (∃ b, 2 ≤ (markedBases dataTypes).count b ∧
         resolveOverrides dialect dataTypes = .error (conflictMsg dialect b))) := by
  constructor
  · intro hmark hnd
    refine ⟨overridePairs dataTypes, ?_, fun b dt => mem_overridePairs dataTypes b dt, ?_⟩
    · have := resolveOverridesAux_ok dialect dataTypes [] hmark (by simpa using hnd)
      simpa [resolveOverrides] using this
    · intro b dt dt' h1 h2
      refine assoc_keys_unique (overridePairs dataTypes) ?_ b dt dt' h1 h2
      rw [map_fst_overridePairs]
      exact hnd
  · intro h
    have := resolveOverridesAux_err dialect dataTypes [] (by simp) (by simpa using h)
    simpa [resolveOverrides] using this

/-- Witness for C1: a two-type dialect resolves to the expected mapping, and
a dialect declaring an unmarked type fails with one of the two configuration
errors. -/
theorem dataTypeOverrides_resolution_witness :
    (∃ m, resolveOverrides "mysql"
        [⟨"BOOLEAN", some "BaseBOOLEAN"⟩, ⟨"DATE", some "BaseDATE"⟩] = .ok m ∧
      (∀ b dt, (b, dt) ∈ m ↔
        (dt ∈ [DataTypeClass.mk "BOOLEAN" (some "BaseBOOLEAN"),
               DataTypeClass.mk "DATE" (some "BaseDATE")] ∧ dt.replaces = some b)) ∧
      (∀ b dt dt', (b, dt) ∈ m → (b, dt') ∈ m → dt = dt')) ∧
    ((∃ dt ∈ [DataTypeClass.mk "UUID" none], dt.replaces = none ∧
        resolveOverrides "mysql" [⟨"UUID", none⟩] =
          .error (unmarkedMsg "mysql" dt.name)) ∨
     (∃ b, 2 ≤ (markedBases [DataTypeClass.mk "UUID" none]).count b ∧
        resolveOverrides "mysql" [⟨"UUID", none⟩] = .error (conflictMsg "mysql" b))) :=
  ⟨(dataTypeOverrides_resolution_spec "mysql"
      [⟨"BOOLEAN", some "BaseBOOLEAN"⟩, ⟨"DATE", some "BaseDATE"⟩]).1
        (by decide) (by decide),
   (dataTypeOverrides_resolution_spec "mysql" [⟨"UUID", none⟩]).2
        (Or.inl ⟨⟨"UUID", none⟩, by decide, rfl⟩)⟩

end Sequelize
